import Mathlib

/-!
Verification of the geerpc RPC framework (server, client, codec, registry,
discovery-backed XClient) against its natural-language specification.

Each Go function referenced by a claim is shallowly embedded as an executable
Lean definition.  Durations are naturals (an abstract time unit); machine
integers that never overflow in the source are naturals; fallible Go calls
return `Except`/`Option`; paths that call `log.Fatal` or `panic` are made
explicit through the `GoOutcome` type.  Races between a timer channel and a
result channel are resolved by comparing the two durations, with ties going
to the result channel (any strict inequality used in a theorem is insensitive
to the tie-breaking choice).
-/

namespace GeeRPC

/-- Outcome of a Go computation: a normal value, a returned error, process
termination via `log.Fatal`, or a runtime panic (`log.Panic` / reflect panic).
Both `fatal` and `crash` terminate the process. -/
inductive GoOutcome (α : Type) where
  | ok (a : α)
  | err (msg : String)
  | fatal (msg : String)
  | crash (msg : String)
deriving DecidableEq, Repr

/-- True exactly on the `log.Fatal` outcome. -/
def GoOutcome.isFatal {α : Type} : GoOutcome α → Bool
  | .fatal _ => true
  | _ => false

/-- Codec type tag `codec.GobType = "application/gob"` (codec package). -/
def GobType : String := "application/gob"

/-- Codec type tag `codec.JsonType = "application/json"` (codec package). -/
def JsonType : String := "application/json"

/-- The handshake magic number `MagicNumber = 0x3bef5c` (server file). -/
def MagicNumber : Nat := 0x3bef5c

/-- The sentinel status `connected = "200 Connected to Gee RPC"` (server file). -/
def connected : String := "200 Connected to Gee RPC"

/-- Default RPC path `defaultRPCPath = "/_geeprc_"` (server file). -/
def defaultRPCPath : String := "/_geeprc_"

/-- The handshake `Option` record: magic number, codec tag, connect timeout and
handle timeout (durations as naturals, 0 meaning disabled/unset). -/
structure Opt where
  magicNumber : Nat
  codecType : String
  connectTimeout : Nat
  handleTimeout : Nat
deriving DecidableEq, Repr

/-- The package-level `DefaultOption`: magic number, gob codec, a nonzero
connect timeout, and a `HandleTimeout` left at its zero value. -/
def DefaultOption : Opt :=
  { magicNumber := MagicNumber
    codecType := GobType
    connectTimeout := 10
    handleTimeout := 0 }

/-- Embedding of `parseOptions(opts ...*Option)` from the client file: an empty
list or a nil first element yields `DefaultOption`; more than one element is an
error; otherwise the magic number is overwritten with the default and an empty
codec type is replaced with the default gob tag. -/
def parseOptions : List (Option Opt) → Except String Opt
  | [] => .ok DefaultOption
  | none :: _ => .ok DefaultOption
  | some o :: rest =>
    if rest.length ≠ 0 then .error "number of options is more than 1"
    else .ok { o with
      magicNumber := DefaultOption.magicNumber
      codecType := if o.codecType = "" then DefaultOption.codecType else o.codecType }

/-- The magic-number rejection test in `Server.ServeConn`: the connection is
rejected exactly when the decoded option's magic number differs from
`MagicNumber`. -/
def serveConnRejectsMagic (o : Opt) : Bool :=
  o.magicNumber != MagicNumber

/-- The status line `Server.ServeHTTP` writes on a CONNECT request before
handing the hijacked stream to `ServeConn`:
`io.WriteString(conn, "HTTP/1.0 "+connected+"\n\n")`. -/
def serveHTTPConnectReply : String := "HTTP/1.0 " ++ connected ++ "\n\n"

/-- The acceptance test of `NewHTTPClient`: the dialer proceeds with the RPC
handshake exactly when `resp.Status == connected`. -/
def newHTTPClientAccepts (status : String) : Bool :=
  status == connected

/-- One entry of the registry's server map (registry.go `ServerItem`): the
endpoint address and the instant of its last heartbeat. -/
structure ServerItem where
  addr : String
  start : Nat
deriving DecidableEq, Repr

/-- The registry (registry.go `GeeRegistry`): the eviction TTL and the server
map, embedded as an association list (the Go map's iteration order is
irrelevant because `aliveServers` sorts its output). -/
structure GeeRegistry where
  timeout : Nat
  servers : List ServerItem
deriving Repr

/-- The liveness test inside `aliveServers`:
`r.timeout == 0 || s.start.Add(r.timeout).After(time.Now())`. -/
def itemAlive (timeout now : Nat) (s : ServerItem) : Bool :=
  timeout == 0 || decide (now < s.start + timeout)

/-- Embedding of `GeeRegistry.aliveServers`: keep exactly the live entries,
delete the expired ones from the map, and return the kept addresses sorted
lexicographically (Go's `sort.Strings`). -/
def aliveServers (r : GeeRegistry) (now : Nat) : List String × GeeRegistry :=
  let kept := r.servers.filter (itemAlive r.timeout now)
  (List.insertionSort (· ≤ ·) (kept.map ServerItem.addr), { r with servers := kept })

/-- Embedding of `GeeRegistry.putServer`: refresh the heartbeat instant of an
existing entry, or append a fresh entry. -/
def putServer (r : GeeRegistry) (addr : String) (now : Nat) : GeeRegistry :=
  if r.servers.any (fun s => s.addr == addr) then
    { r with servers := r.servers.map (fun s => if s.addr == addr then { s with start := now } else s) }
  else
    { r with servers := r.servers ++ [⟨addr, now⟩] }

/-- An incoming HTTP request to the registry, reduced to what `ServeHTTP`
inspects: the method and, for POST, the `X-Geerpc-Server` request header
(the empty string models a missing header). -/
inductive RegistryReq where
  | get
  | post (serverHeader : String)
  | other
deriving DecidableEq, Repr

/-- The observable reply of the registry's `ServeHTTP`: the
`X-Geerpc-Servers` response header for GET, status 500 for a POST without the
server header, plain 200 for a successful POST, and 405 otherwise. -/
inductive RegistryResp where
  | servers (headerValue : String)
  | status500
  | status200
  | status405
deriving DecidableEq, Repr

/-- Embedding of `GeeRegistry.ServeHTTP`. -/
def registryServeHTTP (r : GeeRegistry) (now : Nat) : RegistryReq → RegistryResp × GeeRegistry
  | .get =>
    let p := aliveServers r now
    (.servers (String.intercalate "," p.1), p.2)
  | .post h =>
    if h = "" then (.status500, r) else (.status200, putServer r h now)
  | .other => (.status405, r)

/-- The mutex-protected state of a `Client` (client file): the next sequence
number to hand out, the keys of the `pending` map (the attached `Call` values
are irrelevant to the sequencing claims), and the `closing` / `shutdown`
flags.  All four fields are guarded by `c.mu` in the source, so the state
only changes through the atomic operations below. -/
structure ClientState where
  seq : Nat
  pending : List Nat
  closing : Bool
  shutdown : Bool
deriving DecidableEq, Repr

/-- The state `newClientCodec` builds: `seq` starts at 1, `pending` empty,
both flags false. -/
def newClientCodec : ClientState :=
  { seq := 1, pending := [], closing := false, shutdown := false }

/-- Embedding of `Client.registerCall`: fail (returning no sequence number)
when closing or shut down; otherwise assign the current `seq` to the call,
record it in `pending`, and increment `seq`. -/
def registerCall (s : ClientState) : ClientState × Option Nat :=
  if s.closing || s.shutdown then (s, none)
  else ({ s with pending := s.seq :: s.pending, seq := s.seq + 1 }, some s.seq)

/-- Embedding of `Client.removeCall`: delete the entry for `seq` from
`pending` (the returned `*Call` is dropped here). -/
def removeCall (s : ClientState) (k : Nat) : ClientState :=
  { s with pending := s.pending.erase k }

/-- Embedding of `Client.Close`: set the `closing` flag (the codec close and
the double-close error are irrelevant to the sequencing claims). -/
def closeClient (s : ClientState) : ClientState :=
  { s with closing := true }

/-- Embedding of `Client.terminateCalls`: set the `shutdown` flag and signal
every pending call; the source does not delete the entries. -/
def terminateCalls (s : ClientState) : ClientState :=
  { s with shutdown := true }

/-- One mutex-protected operation on the client state. -/
inductive ClientOp where
  | register
  | remove (k : Nat)
  | close
  | terminate
deriving DecidableEq, Repr

/-- Apply one operation; the second component is the sequence number assigned
by a successful `registerCall`, `none` otherwise. -/
def stepClient (s : ClientState) : ClientOp → ClientState × Option Nat
  | .register => registerCall s
  | .remove k => (removeCall s k, none)
  | .close => (closeClient s, none)
  | .terminate => (terminateCalls s, none)

/-- Run a sequence of operations, collecting the assigned sequence numbers in
order. -/
def runClient (s : ClientState) : List ClientOp → ClientState × List Nat
  | [] => (s, [])
  | op :: ops =>
    let p := stepClient s op
    let q := runClient p.1 ops
    (q.1, p.2.toList ++ q.2)

/-- Embedding of `GobCodec.Write` (codec/gob.go): the two booleans say whether
gob encoding of the header and of the body succeeds.  On either failure the
function's named error is non-nil when the deferred closure runs, and that
closure calls `log.Fatal("rpc codec: gob error writing:", err)`, terminating
the process (the `conn.Close()` written after it is unreachable). -/
def gobWrite (encodeHeaderOk encodeBodyOk : Bool) : GoOutcome Unit :=
  if encodeHeaderOk = false then .fatal "rpc codec: gob error writing:"
  else if encodeBodyOk = false then .fatal "rpc codec: gob error writing:"
  else .ok ()

/-- Embedding of Go's `ast.IsExported` (`token.IsExported`): the first
character is an upper-case letter. -/
def isExported (name : String) : Bool :=
  match name.toList with
  | [] => false
  | c :: _ => c.isUpper

/-- Embedding of `newService` restricted to its name check (service file,
concatenated after client_test.go): when the receiver's type name is not
exported, `log.Fatalf("rpc server: %s is not a valid service name", s.name)`
terminates the process; otherwise the service is built. -/
def newService (name : String) : GoOutcome String :=
  if isExported name = false then
    .fatal ("rpc server: " ++ name ++ " is not a valid service name")
  else .ok name

/-- Embedding of the done-channel check in `Client.Go`: `done == nil`
allocates a channel of capacity 10; a supplied channel of capacity 0 hits
`log.Panic("rpc client: done channel is unbuffered")`; otherwise the supplied
capacity is used. -/
def goDoneChannel (doneCap : Option Nat) : GoOutcome Nat :=
  match doneCap with
  | none => .ok 10
  | some 0 => .crash "rpc client: done channel is unbuffered"
  | some (n + 1) => .ok (n + 1)

/-- Result of `dialTimeout`: the returned value (or the process-terminating
outcome of the handshake goroutine's `log.Fatal`) together with whether the
deferred close ran on the established connection. -/
structure DialOutcome where
  result : GoOutcome Nat
  connClosed : Bool
deriving DecidableEq, Repr

/-- Embedding of `dialTimeout` (client file).  `net.DialTimeout` bounds the
TCP connect alone by `opt.ConnectTimeout` (0 = unlimited); `connectOk` models
non-timeout network failures and `connectDur` the connect's duration.  The
handshake `f(conn, opt)` then runs in a goroutine taking `handshakeDur`; if it
returns an error the goroutine calls `log.Fatal`.  With a zero timeout the
result is awaited without limit; otherwise a `time.After(ConnectTimeout)` race
starting after the connect decides: a handshake strictly longer than the
timeout loses to the timer and `dialTimeout` returns the connect-timeout
error, the deferred close closing the connection. -/
def dialTimeout (connectTimeout : Nat) (connectOk : Bool) (connectDur : Nat)
    (handshake : Except String Nat) (handshakeDur : Nat) : DialOutcome :=
  if connectOk = false ∨ (connectTimeout ≠ 0 ∧ connectTimeout ≤ connectDur) then
    { result := .err "net dial error", connClosed := false }
  else
    match handshake with
    | .error e => { result := .fatal ("rpc client: dialTimeout:" ++ e), connClosed := false }
    | .ok client =>
      if connectTimeout = 0 then
        { result := .ok client, connClosed := false }
      else if connectTimeout < handshakeDur then
        { result := .err ("rpc client: connect timeout:expect within " ++ toString connectTimeout)
          connClosed := true }
      else
        { result := .ok client, connClosed := false }

/-- A response header on the wire (codec.Header): service method, sequence
number and error text. -/
structure HeaderR where
  serviceMethod : String
  seq : Nat
  error : String
deriving DecidableEq, Repr

/-- A response body: the `invalidRequest` placeholder sent with error
responses, or the method's reply value (abstracted to a natural). -/
inductive RespBody where
  | invalidRequest
  | replyv (v : Nat)
deriving DecidableEq, Repr

/-- The timeout argument `serveCodec` passes to every `handleRequest` it
spawns: the source reads `go s.handleRequest(cc, req, sending, wg,
DefaultOption.HandleTimeout)`, ignoring the `Option` decoded from the
connection's handshake in `ServeConn` (which is never propagated to
`serveCodec`). -/
def serveCodecHandleTimeout (_connOpt : Opt) : Nat :=
  DefaultOption.handleTimeout

/-- Embedding of `Server.handleRequest`: the method call runs in an inner
goroutine for `callDur` time units, returning `callErr` (and writing
`replyVal` into the reply on success).  With a zero timeout the goroutine's
own response is awaited; otherwise a `time.After(timeout)` race decides: if
the timer fires first (the call lasting strictly longer than the timeout) a
response with the handle-timeout error and the `invalidRequest` body is sent,
and the inner goroutine then blocks forever on its unbuffered `called`
channel, so its late response is never written. -/
def handleRequest (timeout : Nat) (h : HeaderR) (callDur : Nat)
    (callErr : Option String) (replyVal : Nat) : HeaderR × RespBody :=
  let normal : HeaderR × RespBody :=
    match callErr with
    | some e => ({ h with error := e }, .invalidRequest)
    | none => (h, .replyv replyVal)
  if timeout = 0 then normal
  else if timeout < callDur then
    ({ h with error := "rpc server: request handle timeout: expect within " ++ toString timeout },
     .invalidRequest)
  else normal

/-- Index of the last `'.'` in a string, as a character index: embedding of
`strings.LastIndex(serviceMethod, ".")` (the strings here are ASCII, so byte
and character indices agree). -/
def lastDotIdx (s : String) : Option Nat :=
  match s.toList.reverse.findIdx? (fun c => c = '.') with
  | none => none
  | some i => some (s.length - 1 - i)

/-- Embedding of `Server.findService` over a service map given as an
association list from service name to the list of registered method names:
a string without a dot, an unknown service, and an unknown method each yield
the distinct error the source builds. -/
def findService (smap : List (String × List String)) (serviceMethod : String) :
    Except String Unit :=
  match lastDotIdx serviceMethod with
  | none => .error ("rpc: service/method request ill-formed: " ++ serviceMethod)
  | some dot =>
    let serviceName := serviceMethod.take dot
    let methodName := serviceMethod.drop (dot + 1)
    match smap.lookup serviceName with
    | none => .error ("rpc: can't find service " ++ serviceName)
    | some ms =>
      if methodName ∈ ms then .ok ()
      else .error ("rpc: can't find method " ++ methodName ++ " in service " ++ serviceName)

/-- One request as the serve loop observes it: the decoded header fields and
whether the body decode (`cc.ReadBody` in `readRequest`) succeeds. -/
structure ReqItem where
  serviceMethod : String
  seq : Nat
  bodyOk : Bool
deriving DecidableEq, Repr

/-- One iteration's input to the serve loop: a header-decode failure, or a
decoded header with its request data. -/
inductive Incoming where
  | headerFail
  | item (r : ReqItem)
deriving DecidableEq, Repr

/-- Embedding of the `serveCodec` read loop, returning the response headers
sent on the connection in order.  A header-decode failure makes `readRequest`
return `(nil, err)` and the loop breaks.  After a decoded header, a
`findService` failure makes `readRequest` return the non-nil request with the
error, so the loop sends an error response and continues.  A body-decode
failure makes `readRequest` return `(nil, err)` — the loop breaks without a
response for that request.  A fully read request is handled normally (the
handler's outcome is abstracted to a success response here; `handleRequest`
is modelled separately). -/
def serveLoop (smap : List (String × List String)) : List Incoming → List HeaderR
  | [] => []
  | .headerFail :: _ => []
  | .item r :: rest =>
    match findService smap r.serviceMethod with
    | .error e =>
      { serviceMethod := r.serviceMethod, seq := r.seq, error := e } :: serveLoop smap rest
    | .ok _ =>
      if r.bodyOk then
        { serviceMethod := r.serviceMethod, seq := r.seq, error := "" } :: serveLoop smap rest
      else []

/-- Outcome of one per-endpoint call inside `Broadcast` (xclient.go): either
success, with the value the call left in its cloned reply, or failure, with
the error text and whatever (possibly partial) value the clone holds. -/
inductive CallOutcome where
  | success (clone : Nat)
  | failure (msg : String) (clone : Nat)
deriving DecidableEq, Repr

/-- True on `CallOutcome.failure`. -/
def CallOutcome.isFailure : CallOutcome → Bool
  | .failure _ _ => true
  | .success _ => false

/-- The mutex-protected shared state of `Broadcast`: whether a goroutine has
panicked (a panic in a goroutine kills the whole Go process, so it is sticky
here), the first recorded error `e`, the `replyDone` flag, and the current
contents of the caller's `*reply` (`none` while untouched). -/
structure BState where
  crashed : Bool
  e : Option String
  replyDone : Bool
  reply : Option Nat
deriving DecidableEq, Repr

/-- The state `Broadcast` sets up before the fan-out:
`replyDone := reply == nil`, no error, reply untouched. -/
def broadcastInit (replyNil : Bool) : BState :=
  { crashed := false, e := none, replyDone := replyNil, reply := none }

/-- Embedding of the critical section each `Broadcast` goroutine runs after
its call returns.  On the first failure (`e == nil`), `e` is recorded and
`reflect.ValueOf(reply).Elem().Set(...)` copies the failed call's clone into
`*reply` — unconditionally, so with a nil `reply` this is
`reflect.Value.Elem` on the zero `reflect.Value`, a panic.  A success with
`!replyDone` writes its clone into `*reply` and sets `replyDone`; later
successes change nothing. -/
def broadcastStep (replyNil : Bool) (s : BState) : CallOutcome → BState
  | .failure m clone =>
    if s.crashed then s
    else if s.e = none then
      if replyNil then { s with crashed := true }
      else { s with e := some m, reply := some clone }
    else s
  | .success v =>
    if s.crashed then s
    else if s.replyDone then s
    else { s with reply := some v, replyDone := true }

/-- Fold of the critical sections over the per-endpoint outcomes, taken in
the order the goroutines enter the mutex. -/
def broadcastFold (replyNil : Bool) (outs : List CallOutcome) : BState :=
  outs.foldl (broadcastStep replyNil) (broadcastInit replyNil)

/-- What `Broadcast` as a whole does: a goroutine panic crashes the process
(`wg.Wait` never returns); otherwise all goroutines are awaited and the first
recorded error (or nil) is returned, `*reply` holding the folded value. -/
inductive BResult where
  | crashed
  | done (e : Option String) (reply : Option Nat)
deriving DecidableEq, Repr

/-- Embedding of `XClient.Broadcast`, parameterized by whether the caller
passed a nil `reply` and by the per-endpoint outcomes in completion order. -/
def Broadcast (replyNil : Bool) (outs : List CallOutcome) : BResult :=
  let s := broadcastFold replyNil outs
  if s.crashed then .crashed else .done s.e s.reply

/-- First failure message in a list of outcomes, in order — the error
`Broadcast` records. -/
def firstFailureMsg : List CallOutcome → Option String
  | [] => none
  | .failure m _ :: _ => some m
  | .success _ :: os => firstFailureMsg os

end GeeRPC

namespace GeeRPC

/-- C10 helper fact is stated on `parseOptions` directly; no further defs. -/
theorem parseOptions_default : parseOptions [] = .ok DefaultOption := rfl

/-- C10: every option accepted by `parseOptions` (hence every option used by
`Dial`, `DialHTTP` and `XDial`, which all funnel through
`dialTimeout → parseOptions`) carries the magic number `0x3bef5c` and a
nonempty codec type, an explicitly passed option keeps its codec type unless
empty (then gob), and the server's magic-number rejection branch in `ServeConn`
is not taken for such an option. -/
theorem parseOptions_magic (opts : List (Option Opt)) (o : Opt)
    (h : parseOptions opts = Except.ok o) :
    o.magicNumber = 0x3bef5c
    ∧ o.codecType ≠ ""
    ∧ serveConnRejectsMagic o = false
    ∧ (∀ i : Opt, opts = [some i] →
        o.codecType = if i.codecType = "" then GobType else i.codecType) := by
  match opts with
  | [] =>
    simp only [parseOptions, Except.ok.injEq] at h
    subst h
    refine ⟨rfl, by decide, by decide, ?_⟩
    intro i hi; cases hi
  | none :: rest =>
    simp only [parseOptions, Except.ok.injEq] at h
    subst h
    refine ⟨rfl, by decide, by decide, ?_⟩
    intro i hi; cases hi
  | some i :: rest =>
    simp only [parseOptions] at h
    by_cases hr : rest.length ≠ 0
    · simp [hr] at h
    · simp only [hr, if_false, Except.ok.injEq] at h
      subst h
      refine ⟨rfl, ?_, ?_, ?_⟩
      · by_cases hc : i.codecType = "" <;> simp [hc, DefaultOption, GobType]
      · simp [serveConnRejectsMagic, DefaultOption]
      · intro j hj
        have hrest : rest = [] := List.length_eq_zero.mp (not_not.mp hr)
        subst hrest
        cases hj
        rfl

/-- C10 witness: `parseOptions` applied to a concrete option with a wrong magic
number and empty codec type yields the default magic number. -/
theorem parseOptions_magic_witness :
    (⟨0x3bef5c, GobType, 0, 0⟩ : Opt).magicNumber = 0x3bef5c :=
  (parseOptions_magic [some ⟨999, "", 0, 0⟩] ⟨0x3bef5c, GobType, 0, 0⟩ rfl).1

/-- C8 counterexample: the status line the server actually writes on a CONNECT
request ends in two bare line feeds, not in the CRLF CRLF bytes the claim
states, so the claimed byte string is not what is written. -/
theorem serveHTTPConnectReply_not_crlf :
    serveHTTPConnectReply ≠ "HTTP/1.0 200 Connected to Gee RPC\x0d\n\x0d\n" := by
  decide

/-- C8 amended: the server writes exactly
`"HTTP/1.0 200 Connected to Gee RPC\n\n"` (LF LF, no carriage returns) to the
hijacked stream, and the HTTP-CONNECT dialer accepts the connection exactly
when the response status equals `"200 Connected to Gee RPC"`. -/
theorem serveHTTPConnectReply_bytes :
    serveHTTPConnectReply = "HTTP/1.0 200 Connected to Gee RPC\n\n"
    ∧ ∀ s : String, newHTTPClientAccepts s = (s == "200 Connected to Gee RPC") := by
  exact ⟨rfl, fun s => rfl⟩

/-- Unfolding of the Boolean liveness test into a proposition. -/
theorem itemAlive_iff (t now : Nat) (s : ServerItem) :
    itemAlive t now s = true ↔ t = 0 ∨ now < s.start + t := by
  simp [itemAlive]

/-- C7: for every registry state and GET query, the `X-Geerpc-Servers` value
is the comma-separated join of a lexicographically sorted list holding exactly
the addresses whose last heartbeat is younger than the TTL (every address when
the TTL is 0), and the updated map holds exactly the unexpired entries, i.e.
every expired entry is deleted during the query. -/
theorem registryGet_alive (r : GeeRegistry) (now : Nat) :
    ∃ (l : List String) (r2 : GeeRegistry),
      registryServeHTTP r now RegistryReq.get
        = (RegistryResp.servers (String.intercalate "," l), r2)
      ∧ List.Sorted (· ≤ ·) l
      ∧ (∀ a : String, a ∈ l ↔
          ∃ st : Nat, ServerItem.mk a st ∈ r.servers ∧ (r.timeout = 0 ∨ now < st + r.timeout))
      ∧ (∀ it : ServerItem, it ∈ r2.servers ↔
          it ∈ r.servers ∧ (r.timeout = 0 ∨ now < it.start + r.timeout)) := by
  refine ⟨List.insertionSort (· ≤ ·)
            ((r.servers.filter (itemAlive r.timeout now)).map ServerItem.addr),
          { r with servers := r.servers.filter (itemAlive r.timeout now) },
          rfl, List.sorted_insertionSort _ _, ?_, ?_⟩
  · intro a
    rw [(List.perm_insertionSort _ _).mem_iff, List.mem_map]
    constructor
    · rintro ⟨s, hs, rfl⟩
      rw [List.mem_filter] at hs
      exact ⟨s.start, hs.1, (itemAlive_iff _ _ _).mp hs.2⟩
    · rintro ⟨st, hmem, halive⟩
      exact ⟨⟨a, st⟩, List.mem_filter.mpr ⟨hmem, (itemAlive_iff _ _ _).mpr halive⟩, rfl⟩
  · intro it
    show it ∈ r.servers.filter (itemAlive r.timeout now) ↔ _
    rw [List.mem_filter, itemAlive_iff]

/-- Assigned sequence numbers form the contiguous run starting at the state's
current `seq` counter: helper for C9, by induction over the operations. -/
theorem runClient_assigned (ops : List ClientOp) (s : ClientState) :
    (runClient s ops).2 = List.range' s.seq (runClient s ops).2.length := by
  induction ops generalizing s with
  | nil => rfl
  | cons op ops ih =>
    cases op with
    | register =>
      by_cases h : (s.closing || s.shutdown) = true
      · simp only [runClient, stepClient, registerCall, h, if_true]
        simpa using ih s
      · simp only [runClient, stepClient, registerCall, h, if_false]
        have ihs := ih { s with pending := s.seq :: s.pending, seq := s.seq + 1 }
        exact congrArg (s.seq :: ·) ihs
    | remove k =>
      simp only [runClient, stepClient, Option.toList_none, List.nil_append]
      exact ih (removeCall s k)
    | close =>
      simp only [runClient, stepClient, Option.toList_none, List.nil_append]
      exact ih (closeClient s)
    | terminate =>
      simp only [runClient, stepClient, Option.toList_none, List.nil_append]
      exact ih (terminateCalls s)

/-- The pending-map invariant behind C9: every pending key is below the seq
counter, and the keys are pairwise distinct. -/
def ClientInv (s : ClientState) : Prop :=
  (∀ k ∈ s.pending, k < s.seq) ∧ s.pending.Nodup

/-- One client operation preserves the pending-map invariant. -/
theorem stepClient_inv (s : ClientState) (op : ClientOp) (h : ClientInv s) :
    ClientInv (stepClient s op).1 := by
  obtain ⟨hlt, hnd⟩ := h
  cases op with
  | register =>
    by_cases hc : (s.closing || s.shutdown) = true
    · simpa [stepClient, registerCall, hc] using ⟨hlt, hnd⟩
    · refine ⟨?_, ?_⟩ <;> simp only [stepClient, registerCall, hc, if_false]
      · intro k hk
        rcases List.mem_cons.mp hk with rfl | hk
        · exact Nat.lt_succ_self _
        · exact Nat.lt_succ_of_lt (hlt k hk)
      · exact List.nodup_cons.mpr ⟨fun hmem => Nat.lt_irrefl _ (hlt _ hmem), hnd⟩
  | remove k =>
    refine ⟨?_, hnd.erase k⟩
    intro j hj
    exact hlt j (List.mem_of_mem_erase hj)
  | close => exact ⟨hlt, hnd⟩
  | terminate => exact ⟨hlt, hnd⟩

/-- Any run from an invariant state ends in an invariant state. -/
theorem runClient_inv (ops : List ClientOp) (s : ClientState) (h : ClientInv s) :
    ClientInv (runClient s ops).1 := by
  induction ops generalizing s with
  | nil => exact h
  | cons op ops ih => exact ih _ (stepClient_inv s op h)

/-- C9: starting from the state built by `newClientCodec`, any sequence of
client operations assigns, through its successful `registerCall`s, exactly the
sequence numbers `1, 2, …, k` in order — strictly increasing from 1, each
assigned to at most one call — and the pending map of the resulting state (and
hence of every reachable state, since the operation list is arbitrary) has
pairwise-distinct keys, so at most one pending entry exists per Seq. -/
theorem registerCall_seq_invariants (ops : List ClientOp) :
    (runClient newClientCodec ops).2
      = List.range' 1 (runClient newClientCodec ops).2.length
    ∧ (runClient newClientCodec ops).1.pending.Nodup := by
  refine ⟨runClient_assigned ops newClientCodec, ?_⟩
  exact (runClient_inv ops newClientCodec ⟨by simp [newClientCodec], by simp [newClientCodec]⟩).2

/-- C1 (code-bug evaluation): `serveCodec` hands every `handleRequest` the
timeout `DefaultOption.HandleTimeout` — here for a connection whose handshake
`Option` carries `HandleTimeout = 1` the argument is still 0 — and with
timeout 0 a method call lasting 2 units produces the normal reply with an
empty `Header.Error`, never the handle-timeout response; had the connection's
value 1 been used, the handle-timeout error would have been sent. -/
theorem serveCodec_ignores_connection_handleTimeout :
    serveCodecHandleTimeout
        { magicNumber := MagicNumber, codecType := GobType, connectTimeout := 0, handleTimeout := 1 }
      = 0
    ∧ handleRequest 0 { serviceMethod := "Bar.Timeout", seq := 1, error := "" } 2 none 0
        = ({ serviceMethod := "Bar.Timeout", seq := 1, error := "" }, RespBody.replyv 0)
    ∧ (handleRequest 1 { serviceMethod := "Bar.Timeout", seq := 1, error := "" } 2 none 0).1.error
        = "rpc server: request handle timeout: expect within 1" :=
  ⟨rfl, rfl, rfl⟩

/-- C2 counterexample: the claim — after a successfully decoded header, a
body-decode failure still yields an error response for that request and the
loop continues — fails at the concrete service map `[("Foo", ["Sum"])]` and
request `"Foo.Sum"` with a failing body decode followed by a well-formed
request: the loop emits no response at all and stops. -/
theorem serveLoop_bodyFail_stops_cex :
    ¬ (∀ (smap : List (String × List String)) (r : ReqItem) (rest : List Incoming),
        findService smap r.serviceMethod = Except.ok () → r.bodyOk = false →
        (serveLoop smap (Incoming.item r :: rest)).length
          = (serveLoop smap rest).length + 1) := by
  intro hcl
  have h := hcl [("Foo", ["Sum"])] ⟨"Foo.Sum", 1, false⟩
      [Incoming.item ⟨"Foo.Sum", 2, true⟩] rfl rfl
  revert h
  decide

/-- C2 amended: after a successfully decoded header, a service/method
resolution failure produces an error response carrying the resolution error
for that single request and the serve loop continues with the remaining
requests; a body-decode failure instead terminates the loop without a
response; and the malformed `ServiceMethod` `"NoDot"` yields, on any service
map, the error text naming the malformed input. -/
theorem serveLoop_resolution_error_continues (smap : List (String × List String))
    (r : ReqItem) (rest : List Incoming) (e : String)
    (hres : findService smap r.serviceMethod = Except.error e) :
    serveLoop smap (Incoming.item r :: rest)
      = { serviceMethod := r.serviceMethod, seq := r.seq, error := e } :: serveLoop smap rest
    ∧ (∀ (r2 : ReqItem) (rest2 : List Incoming),
        findService smap r2.serviceMethod = Except.ok () → r2.bodyOk = false →
        serveLoop smap (Incoming.item r2 :: rest2) = [])
    ∧ findService smap "NoDot" = Except.error "rpc: service/method request ill-formed: NoDot" := by
  refine ⟨?_, ?_, rfl⟩
  · simp [serveLoop, hres]
  · intro r2 rest2 hok hbody
    simp [serveLoop, hok, hbody]

/-- C2 witness: the malformed request `"NoDot"` gets its error response and
the connection continues to the next request. -/
theorem serveLoop_resolution_error_continues_witness :
    serveLoop [("Foo", ["Sum"])]
        (Incoming.item ⟨"NoDot", 1, true⟩ :: [Incoming.item ⟨"Foo.Sum", 2, true⟩])
      = { serviceMethod := "NoDot", seq := 1,
          error := "rpc: service/method request ill-formed: NoDot" }
        :: serveLoop [("Foo", ["Sum"])] [Incoming.item ⟨"Foo.Sum", 2, true⟩] :=
  (serveLoop_resolution_error_continues [("Foo", ["Sum"])] ⟨"NoDot", 1, true⟩
      [Incoming.item ⟨"Foo.Sum", 2, true⟩] "rpc: service/method request ill-formed: NoDot" rfl).1

/-- C3 (code-bug evaluation): a `Broadcast` with a nil reply crashes as soon
as one per-endpoint call fails — the first-error branch runs
`reflect.ValueOf(reply).Elem().Set(...)` on the nil reply — whereas with no
failures the nil-reply broadcast completes and returns no error and no reply
value. -/
theorem broadcast_nilReply_failure_crashes :
    Broadcast true [CallOutcome.failure "remote error" 0] = BResult.crashed
    ∧ Broadcast true [CallOutcome.success 0, CallOutcome.success 1] = BResult.done none none
    ∧ Broadcast true [CallOutcome.success 0, CallOutcome.failure "remote error" 0]
        = BResult.crashed :=
  ⟨rfl, rfl, rfl⟩

/-- C4 counterexample: the claim that codec write errors, dial-time handshake
errors, and unexported-receiver registration are all reported as returned
errors (never terminating the process) is false: already a gob header-encode
failure makes `GobCodec.Write`'s deferred closure call `log.Fatal`. -/
theorem fatal_conditions_cex :
    ¬ ((∀ eh eb : Bool, (gobWrite eh eb).isFatal = false)
       ∧ (∀ (cd hd : Nat) (m : String),
            ((dialTimeout 0 true cd (Except.error m) hd).result).isFatal = false)
       ∧ (∀ name : String, isExported name = false → (newService name).isFatal = false)) := by
  intro hcl
  have h := hcl.1 false true
  revert h
  decide

/-- C4 amended: caller misuse (a zero-capacity done channel) indeed panics,
but it is not the only process-terminating condition: a gob codec write error
(header or body encode); a dial-time handshake that returns an error (the
`dialTimeout` goroutine's `log.Fatal`); and registering a receiver whose type
name is not exported (`newService`'s `log.Fatalf`) each terminate the process
as well, while an error-free write and a buffered or nil done channel proceed
normally. -/
theorem fatal_conditions_amended :
    (∀ eb : Bool, (gobWrite false eb).isFatal = true)
    ∧ (gobWrite true false).isFatal = true
    ∧ gobWrite true true = GoOutcome.ok ()
    ∧ (∀ (cd hd : Nat) (m : String),
        ((dialTimeout 0 true cd (Except.error m) hd).result).isFatal = true)
    ∧ (newService "bar").isFatal = true
    ∧ goDoneChannel (some 0) = GoOutcome.crash "rpc client: done channel is unbuffered"
    ∧ (∀ n : Nat, goDoneChannel (some (n + 1)) = GoOutcome.ok (n + 1))
    ∧ goDoneChannel none = GoOutcome.ok 10 := by
  refine ⟨fun eb => by cases eb <;> rfl, rfl, rfl, ?_, rfl, rfl, fun n => rfl, rfl⟩
  intro cd hd m
  simp [dialTimeout, GoOutcome.isFatal]

/-- C6 counterexample: the claim — a connect-plus-handshake exceeding a
nonzero `ConnectTimeout` always yields a timeout error with the connection
closed, and `ConnectTimeout == 0` returns the handshake's result — fails at
`ConnectTimeout = 10` with a 9-unit connect and a 5-unit handshake (total 14):
each phase fits its own separate bound, so `Dial` returns the client
normally. -/
theorem dialTimeout_bound_cex :
    ¬ ((∀ T cd hd c : Nat, T ≠ 0 → T < cd + hd →
          (dialTimeout T true cd (Except.ok c) hd).result
              = GoOutcome.err ("rpc client: connect timeout:expect within " ++ toString T)
            ∧ (dialTimeout T true cd (Except.ok c) hd).connClosed = true)
       ∧ (∀ (cd hd : Nat) (m : String),
            (dialTimeout 0 true cd (Except.error m) hd).result = GoOutcome.err m)) := by
  intro hcl
  have h := hcl.1 10 9 5 1 (by decide) (by decide)
  revert h
  decide

/-- C6 amended: with a nonzero `ConnectTimeout` the TCP connect and the
handshake are each bounded separately by `ConnectTimeout`: a connect at or
over the bound fails at the net layer; after a timely connect, a handshake
strictly longer than the bound makes `Dial` return the connect-timeout error
with the connection closed, and a timely handshake's client is returned (so
connect-plus-handshake may take up to twice `ConnectTimeout` without a
timeout error); `ConnectTimeout == 0` waits without limit for a successful
handshake; a handshake returning an error terminates the process via
`log.Fatal` instead of being returned. -/
theorem dialTimeout_amended (T cd hd c : Nat) (m : String)
    (hT : T ≠ 0) (hcd : cd < T) :
    (T < hd → dialTimeout T true cd (Except.ok c) hd
        = { result := GoOutcome.err ("rpc client: connect timeout:expect within " ++ toString T)
            connClosed := true })
    ∧ (hd ≤ T → dialTimeout T true cd (Except.ok c) hd
        = { result := GoOutcome.ok c, connClosed := false })
    ∧ (∀ cd2 : Nat, T ≤ cd2 → dialTimeout T true cd2 (Except.ok c) hd
        = { result := GoOutcome.err "net dial error", connClosed := false })
    ∧ dialTimeout 0 true cd (Except.ok c) hd = { result := GoOutcome.ok c, connClosed := false }
    ∧ ((dialTimeout T true cd (Except.error m) hd).result).isFatal = true := by
  have hnle : ¬T ≤ cd := Nat.not_le.mpr hcd
  refine ⟨?_, ?_, ?_, ?_, ?_⟩
  · intro hlt
    simp [dialTimeout, hT, hnle, hlt]
  · intro hle
    simp [dialTimeout, hT, hnle, Nat.not_lt.mpr hle]
  · intro cd2 hcd2
    simp [dialTimeout, hT, hcd2]
  · simp [dialTimeout]
  · simp [dialTimeout, hT, hnle, GoOutcome.isFatal]

/-- C6 witness: with `ConnectTimeout = 2`, a 1-unit connect and a 3-unit
handshake, `Dial` returns the connect-timeout error and closes the
connection. -/
theorem dialTimeout_amended_witness :
    dialTimeout 2 true 1 (Except.ok 5) 3
      = { result := GoOutcome.err ("rpc client: connect timeout:expect within " ++ toString 2)
          connClosed := true } :=
  (dialTimeout_amended 2 1 3 5 "x" (by decide) (by decide)).1 (by decide)

/-- Stepping a non-nil-reply broadcast state never sets the crash flag. -/
theorem broadcastStep_nonNil_noCrash (s : BState) (o : CallOutcome)
    (h : s.crashed = false) : (broadcastStep false s o).crashed = false := by
  cases o with
  | failure m clone =>
    simp only [broadcastStep, h]
    split
    · exact h
    · split
      · rfl
      · exact h
  | success v =>
    simp only [broadcastStep, h]
    split
    · exact h
    · split
      · exact h
      · rfl

/-- Folding a non-nil-reply broadcast never sets the crash flag. -/
theorem broadcastFoldAux_noCrash (outs : List CallOutcome) (s : BState)
    (h : s.crashed = false) : (outs.foldl (broadcastStep false) s).crashed = false := by
  induction outs generalizing s with
  | nil => exact h
  | cons o os ih => exact ih _ (broadcastStep_nonNil_noCrash s o h)

/-- Once the first error is recorded, it is never replaced. -/
theorem broadcastFoldAux_e_some (outs : List CallOutcome) (s : BState)
    (hc : s.crashed = false) (m : String) (he : s.e = some m) :
    (outs.foldl (broadcastStep false) s).e = some m := by
  induction outs generalizing s with
  | nil => exact he
  | cons o os ih =>
    refine ih _ (broadcastStep_nonNil_noCrash s o hc) ?_
    cases o with
    | failure m2 clone => simp [broadcastStep, hc, he]
    | success v =>
      simp only [broadcastStep, hc]
      split
      · exact he
      · split
        · exact he
        · exact he

/-- The recorded error of a non-nil-reply broadcast is the first failure's
message. -/
theorem broadcastFoldAux_e (outs : List CallOutcome) (s : BState)
    (hc : s.crashed = false) (he : s.e = none) :
    (outs.foldl (broadcastStep false) s).e = firstFailureMsg outs := by
  induction outs generalizing s with
  | nil => exact he
  | cons o os ih =>
    cases o with
    | failure m clone =>
      show (os.foldl (broadcastStep false) (broadcastStep false s (.failure m clone))).e
        = some m
      have hstep : broadcastStep false s (.failure m clone)
          = { s with e := some m, reply := some clone } := by
        simp [broadcastStep, hc, he]
      rw [hstep]
      exact broadcastFoldAux_e_some os { s with e := some m, reply := some clone } hc m rfl
    | success v =>
      show (os.foldl (broadcastStep false) (broadcastStep false s (.success v))).e
        = firstFailureMsg os
      refine ih (broadcastStep false s (.success v))
        (broadcastStep_nonNil_noCrash s _ hc) ?_
      simp only [broadcastStep, hc]
      split
      · exact he
      · split
        · exact he
        · exact he

/-- Processing failures only leaves `replyDone` (and the crash flag)
unchanged. -/
theorem broadcastFoldAux_failures_replyDone (pre : List CallOutcome) (s : BState)
    (hpre : ∀ o ∈ pre, o.isFailure = true) (hc : s.crashed = false) :
    (pre.foldl (broadcastStep false) s).replyDone = s.replyDone := by
  induction pre generalizing s with
  | nil => rfl
  | cons o os ih =>
    cases o with
    | failure m clone =>
      show (os.foldl (broadcastStep false) (broadcastStep false s (.failure m clone))).replyDone
        = s.replyDone
      have hd : (broadcastStep false s (.failure m clone)).replyDone = s.replyDone := by
        simp only [broadcastStep, hc]
        split
        · rfl
        · split
          · rfl
          · rfl
      rw [ih _ (fun o ho => hpre o (List.mem_cons_of_mem _ ho))
            (broadcastStep_nonNil_noCrash s _ hc)]
      exact hd
    | success v =>
      exact absurd (hpre _ (List.mem_cons_self _ _)) (by simp [CallOutcome.isFailure])

/-- C5: for a `Broadcast` with a non-nil reply, (i) when the first success
arrives — after any prefix of failures — its clone value is written into
`*reply`; (ii) a later success never changes the state, so subsequent
successes do not overwrite the reply; and (iii) the broadcast folds over all
per-endpoint outcomes (it waits for every task) and returns the first
failure's error, or nil when no call failed, together with the folded reply
value. -/
theorem broadcast_first_success_reply (pre post : List CallOutcome) (v : Nat)
    (hpre : ∀ o ∈ pre, o.isFailure = true) :
    (broadcastFold false (pre ++ [CallOutcome.success v])).reply = some v
    ∧ (∀ (s : BState) (w : Nat), s.replyDone = true →
        broadcastStep false s (CallOutcome.success w) = s)
    ∧ Broadcast false (pre ++ CallOutcome.success v :: post)
        = BResult.done (firstFailureMsg (pre ++ CallOutcome.success v :: post))
            ((broadcastFold false (pre ++ CallOutcome.success v :: post)).reply) := by
  refine ⟨?_, ?_, ?_⟩
  · show ((pre ++ [CallOutcome.success v]).foldl (broadcastStep false)
      (broadcastInit false)).reply = some v
    rw [List.foldl_append]
    have hc : ((pre.foldl (broadcastStep false) (broadcastInit false))).crashed = false :=
      broadcastFoldAux_noCrash pre _ rfl
    have hd : ((pre.foldl (broadcastStep false) (broadcastInit false))).replyDone = false :=
      broadcastFoldAux_failures_replyDone pre _ hpre rfl
    simp [broadcastStep, hc, hd]
  · intro s w h
    simp [broadcastStep, h]
  · have hc : (broadcastFold false (pre ++ CallOutcome.success v :: post)).crashed = false :=
      broadcastFoldAux_noCrash _ _ rfl
    have he : (broadcastFold false (pre ++ CallOutcome.success v :: post)).e
        = firstFailureMsg (pre ++ CallOutcome.success v :: post) :=
      broadcastFoldAux_e _ _ rfl rfl
    simp [Broadcast, hc, he]

/-- C5 witness: after one failed endpoint, the first success writes 7 into the
reply. -/
theorem broadcast_first_success_reply_witness :
    (broadcastFold false ([CallOutcome.failure "a" 5] ++ [CallOutcome.success 7])).reply
      = some 7 :=
  (broadcast_first_success_reply [CallOutcome.failure "a" 5] [CallOutcome.success 9] 7
      (by decide)).1

end GeeRPC
